import Mathlib

/-!
Verification development for the mflowgen parameter handler
(`src/mflowgen/param/param_handler.py`) and the instruction-buffer datapath
(`src/pymtl/instbuffer/InstBufferDpath.py`).

The parameter handler is embedded as pure functions over an explicit metadata
store (the on-disk `.mflowgen` directory of the elaborated build graph),
threaded through each command as state.  Printed output is modelled as a list
of strings, and process termination as an explicit exit kind.
-/

namespace Mflowgen

/-- Python truthiness of an optional string CLI flag: `None` and `""` are falsy. -/
def truthyStr : Option String → Bool
  | none => false
  | some s => s ≠ ""

/-- Python truthiness of the optional integer `--step` flag: `None` and `0` are falsy. -/
def truthyStep : Option Int → Bool
  | none => false
  | some n => n ≠ 0

/-- Python `str()` of an optional string (as used by `str.format`): `None` prints as `"None"`. -/
def optStr : Option String → String
  | none => "None"
  | some s => s

/-- Python `str()` of the optional `--step` flag: `None` prints as `"None"`. -/
def stepStr : Option Int → String
  | none => "None"
  | some n => toString n

/-- `mflowgen.utils.bold` adds terminal styling only (cosmetic, out of scope);
modelled as the identity on the text. -/
def bold (x : String) : String := x

/-- A step's `configure.yml` document: the `parameters` sub-mapping plus the
remaining document content (metadata used to regenerate the run script). -/
structure StepConfig where
  parameters : List (String × String)
  metadata : List (String × String)
  deriving DecidableEq

/-- The generated `mflowgen-run` script of a step, abstracted to the resolved
parameter values it embeds. -/
structure RunScript where
  embeddedParams : List (String × String)
  deriving DecidableEq

/-- Regenerate a step's run script from its configuration document. -/
def genRunScript (c : StepConfig) : RunScript :=
  ⟨c.parameters⟩

/-- On-disk state of one step: its `configure.yml` and its `mflowgen-run` script. -/
structure StepState where
  config : StepConfig
  runScript : RunScript
  deriving DecidableEq

/-- The elaborated build graph: numeric step identifiers with their per-step state. -/
abbrev BuildGraph := List (Nat × StepState)

/-- The `.mflowgen` metadata store; `none` when the graph was never elaborated. -/
abbrev MetaStore := Option BuildGraph

/-- Lookup of a parameter key in a `parameters` mapping (Python dict access). -/
def lookupP (key : String) : List (String × String) → Option String
  | [] => none
  | (k, v) :: rest => if k = key then some v else lookupP key rest

/-- `parameters[key] = value` on a mapping in which `key` already occurs:
replaces the value at the (unique) occurrence of `key`. -/
def setParam (key value : String) : List (String × String) → List (String × String)
  | [] => []
  | (k, v) :: rest => if k = key then (k, value) :: rest else (k, v) :: setParam key value rest

/-- Lookup of a step identifier in the build graph. -/
def lookupStep (n : Nat) : BuildGraph → Option StepState
  | [] => none
  | (m, st) :: rest => if m = n then some st else lookupStep n rest

/-- Persist a step's new state back into the build graph. -/
def setStep (n : Nat) (st : StepState) : BuildGraph → BuildGraph
  | [] => []
  | (m, s0) :: rest => if m = n then (m, st) :: rest else (m, s0) :: setStep n st rest

/-- Insert a step into a list of steps sorted by ascending identifier. -/
def insertStep (p : Nat × StepState) : BuildGraph → BuildGraph
  | [] => [p]
  | q :: rest => if p.1 ≤ q.1 then p :: q :: rest else q :: insertStep p rest

/-- Steps of the graph in ascending identifier order (insertion sort). -/
def sortSteps : BuildGraph → BuildGraph
  | [] => []
  | p :: rest => insertStep p (sortSteps rest)

/-- Targeting mode of `update`: one concrete step, or the `--all` flag. -/
inductive Target where
  | step (n : Nat)
  | allSteps
  deriving DecidableEq

/-- Fatal failure conditions of the update operation. -/
inductive ParamError where
  | graphNotElaborated
  | stepNotFound (n : Nat)
  deriving DecidableEq

/-- Termination of the modelled update: normal, or fatal with an error. -/
inductive UpdateExit where
  | ok
  | fatal (e : ParamError)
  deriving DecidableEq

/-- Process exit status reported for an update termination. -/
def updExitCode : UpdateExit → Nat
  | .ok => 0
  | .fatal _ => 1

/-- The per-step confirmation line printed for an update
(format string from `ParamHandler.launch_update`). -/
def updatedLine (key value step : String) : String :=
  s!"Updated parameter \"{key}\" = \"{value}\" for step \"{step}\""

/-- Modelled from the spec: the informational line printed when a target step
is skipped because the key is absent; the source's implementation block is
empty, and the spec requires only that the line name the step and the key. -/
def skipLine (n : Nat) (key : String) : String :=
  s!"Step \"{n}\": parameter \"{key}\" not defined, skipping"

/-- Modelled from the spec: the instructional message printed when the
`.mflowgen` metadata store does not exist. -/
def graphNotElaboratedLine : String :=
  "Error: no elaborated build graph found. Run \"mflowgen run\" first."

/-- Modelled from the spec: the message reported when the requested step
identifier does not resolve to an existing step. -/
def stepNotFoundLine (n : Nat) : String :=
  s!"Error: step \"{n}\" not found in the build graph"

/-- Result of the modelled update operation: the (possibly rewritten) metadata
store, the printed lines, and the termination kind. -/
structure UpdateResult where
  store : MetaStore
  output : List String
  exit : UpdateExit
  deriving DecidableEq

/-- One step of the `--all` pass: update the step if the key pre-exists in its
parameters, otherwise leave it untouched; report either way. -/
def stepUpd (key value : String) (p : Nat × StepState) : (Nat × StepState) × String :=
  match lookupP key p.2.config.parameters with
  | none => (p, skipLine p.1 key)
  | some _ =>
      let c : StepConfig :=
        { p.2.config with parameters := setParam key value p.2.config.parameters }
      ((p.1, ⟨c, genRunScript c⟩), updatedLine key value (toString p.1))

/-- Modelled from the spec: the mutation logic of `ParamHandler.launch_update`
(the block between the `Implement here` markers is empty in the source).
Checks that the metadata store exists, resolves the target step set, and for
each target step sets `parameters[key] = value` and regenerates the run script
when the key pre-exists, skipping the step otherwise; a nonexistent step
identifier is fatal and mutates nothing; `--all` processes the steps in
ascending identifier order. -/
def update (key value : String) (target : Target) (store : MetaStore) : UpdateResult :=
  match store with
  | none => ⟨none, [graphNotElaboratedLine], .fatal .graphNotElaborated⟩
  | some g =>
    match target with
    | .step n =>
      match lookupStep n g with
      | none => ⟨some g, [stepNotFoundLine n], .fatal (.stepNotFound n)⟩
      | some st =>
        match lookupP key st.config.parameters with
        | none => ⟨some g, [skipLine n key], .ok⟩
        | some _ =>
            let c : StepConfig :=
              { st.config with parameters := setParam key value st.config.parameters }
            ⟨some (setStep n ⟨c, genRunScript c⟩ g),
             [updatedLine key value (toString n)], .ok⟩
    | .allSteps =>
        let res := (sortSteps g).map (stepUpd key value)
        ⟨some (res.map Prod.fst), res.map Prod.snd, .ok⟩

/-! ### The CLI stub as it stands in the source -/

/-- Termination of a CLI command: normal return, or `sys.exit` with a code. -/
inductive ExitKind where
  | normal
  | exited (code : Nat)
  deriving DecidableEq

/-- Process exit status implied by a command termination (a normal return
from the handler lets the process exit with status 0). -/
def exitCodeOf : ExitKind → Nat
  | .normal => 0
  | .exited c => c

/-- Result of a CLI command: the metadata store (unchanged unless the command
writes files), the printed lines, and the termination kind. -/
structure CmdResult where
  store : MetaStore
  output : List String
  exit : ExitKind
  deriving DecidableEq

/-- The lines printed by the local `print_help` of `ParamHandler.launch_update`
(usage text; `bold` styling is cosmetic). -/
def print_help_lines : List String :=
  [ "",
    bold "Usage:" ++ " mflowgen param update --key/-k <key> --value/-v <value> [--step/-s <int>] [--all]",
    "",
    bold "Example:" ++ " mflowgen param update --key clock_period --value 2.0 --all",
    "",
    "Updates the parameter for the given step in the build",
    "graph. The parameter key-value pair is only updated if",
    "the key is defined and exists. The --all option applies",
    "the update to all nodes in the currently elaborated graph.",
    "" ]

/-- The lines printed by `ParamHandler.launch_help`. -/
def launch_help_lines : List String :=
  [ "",
    bold "Param Commands",
    "",
    bold " - update :" ++ " Interactive update parameters",
    "",
    "Run any command with -h to see more details",
    "" ]

/-- The error line printed for an unrecognized or missing subcommand. -/
def unrecognizedCmdLine : String :=
  "param: Unrecognized commands (see \"mflowgen param help\")"

/-- The error line printed for extra positional arguments. -/
def unrecognizedPosArgsLine : String :=
  "param: Unrecognized positional args"

/-- Valid commands of `ParamHandler` (field `s.commands`). -/
def commands : List String := ["update", "help"]

/-- `ParamHandler.launch_update` exactly as in the source: if the help flag is
set or a required flag is missing (Python-falsy), print the usage text and
return; otherwise the implementation block is empty (no file is read or
written) and the confirmation line is printed once with the raw flag values. -/
def launch_update (help_ : Bool) (key value : Option String) (step : Option Int)
    (all_ : Bool) (store : MetaStore) : CmdResult :=
  if help_ || !truthyStr key || !truthyStr value || !(truthyStep step || all_) then
    ⟨store, print_help_lines, .normal⟩
  else
    ⟨store, [updatedLine (optStr key) (optStr value) (stepStr step)], .normal⟩

/-- `ParamHandler.launch` exactly as in the source: help with no positional
args prints the command list; a missing or unrecognized first positional
argument prints an error and exits with status 1; extra positional args print
an error and force the help flag; then the command is dispatched. -/
def launch (args : List String) (help_ : Bool) (key value : Option String)
    (step : Option Int) (all_ : Bool) (store : MetaStore) : CmdResult :=
  if help_ && args.isEmpty then
    ⟨store, launch_help_lines, .normal⟩
  else
    match args with
    | [] => ⟨store, [unrecognizedCmdLine], .exited 1⟩
    | command :: rest =>
      if command ∈ commands then
        let posBad := !rest.isEmpty
        let help2 := help_ || posBad
        let pre : List String := if posBad then ["", unrecognizedPosArgsLine] else []
        if command = "update" then
          let r := launch_update help2 key value step all_ store
          ⟨r.store, pre ++ r.output, r.exit⟩
        else
          ⟨store, pre ++ launch_help_lines, .normal⟩
      else
        ⟨store, [unrecognizedCmdLine], .exited 1⟩

end Mflowgen

namespace InstBuffer

/-- `MemReqMsg.TYPE_READ` of the memory interface (read request). -/
def TYPE_READ : Nat := 0

/-- The packed outgoing memory request message, abstracted to its four fields
(`opq` embeds the source's 8-bit opaque field). -/
structure MemReqMsg where
  type_ : Nat
  opq : Nat
  len : Nat
  addr : Nat
  deriving DecidableEq

/-- Bit slice `x[lo:hi]` of a bit vector held as a natural number. -/
def bitsSlice (x lo hi : Nat) : Nat :=
  x / 2 ^ lo % 2 ^ (hi - lo)

/-- `concat(hi, lo)` where `lo` is `loWidth` bits wide. -/
def bitsConcat (hi loWidth lo : Nat) : Nat :=
  hi * 2 ^ loWidth + lo

/-- The combinational block `comb_memreq_msg_pack` of `InstBufferDpath`:
`type_` is `TYPE_READ`, `opaque` and `len` are zero, and `addr` is
`concat(buffreq_addr_reg.out[line_bw:32], Bits(line_bw, 0))`.  The input state
is the registered request address `buffreq_addr_reg.out` (32 bits wide);
`line_bw = clog2(line_nbytes)` is the elaboration-time line-offset width. -/
def comb_memreq_msg_pack (line_bw : Nat) (buffreq_addr_reg_out : Nat) : MemReqMsg :=
  { type_ := TYPE_READ
    opq := 0
    addr := bitsConcat (bitsSlice buffreq_addr_reg_out line_bw 32) line_bw 0
    len := 0 }

end InstBuffer

namespace Mflowgen

/-! ### Helper lemmas on the parameter and step maps -/

theorem lookupP_setParam_some (key value : String) (l : List (String × String))
    (h : (lookupP key l).isSome) :
    lookupP key (setParam key value l) = some value := by
  induction l with
  | nil => simp [lookupP] at h
  | cons p rest ih =>
    obtain ⟨k, v⟩ := p
    by_cases hk : k = key
    · simp [setParam, lookupP, hk]
    · simp [setParam, lookupP, hk] at h ⊢
      exact ih h

theorem setParam_idem (key value : String) (l : List (String × String)) :
    setParam key value (setParam key value l) = setParam key value l := by
  induction l with
  | nil => rfl
  | cons p rest ih =>
    obtain ⟨k, v⟩ := p
    by_cases hk : k = key
    · simp [setParam, hk]
    · simp [setParam, hk, ih]

theorem lookupStep_setStep_self (n : Nat) (st' : StepState) (g : BuildGraph)
    (h : (lookupStep n g).isSome) :
    lookupStep n (setStep n st' g) = some st' := by
  induction g with
  | nil => simp [lookupStep] at h
  | cons p rest ih =>
    obtain ⟨m, s0⟩ := p
    by_cases hm : m = n
    · simp [setStep, lookupStep, hm]
    · simp [setStep, lookupStep, hm] at h ⊢
      exact ih h

theorem setStep_setStep (n : Nat) (st : StepState) (g : BuildGraph) :
    setStep n st (setStep n st g) = setStep n st g := by
  induction g with
  | nil => rfl
  | cons p rest ih =>
    obtain ⟨m, s0⟩ := p
    by_cases hm : m = n
    · simp [setStep, hm]
    · simp [setStep, hm, ih]

/-- A sample elaborated build graph with one step (id 5) whose parameters
contain `clock_period`. -/
def g1 : BuildGraph :=
  [(5, ⟨⟨[("clock_period", "1.0")], [("design", "GcdUnit")]⟩, ⟨[("clock_period", "1.0")]⟩⟩)]

/-- The state of step 5 in `g1`. -/
def st1 : StepState :=
  ⟨⟨[("clock_period", "1.0")], [("design", "GcdUnit")]⟩, ⟨[("clock_period", "1.0")]⟩⟩

/-- Claim C1: for every existing step whose configuration already contains the
key, the modelled update sets `parameters[key] = value` in that step's
persisted configuration and regenerates its run script from the updated
document. -/
theorem update_sets_param_and_regenerates (key value : String) (n : Nat) (g : BuildGraph)
    (st : StepState) (hs : lookupStep n g = some st)
    (hk : (lookupP key st.config.parameters).isSome) :
    ∃ g' st', (update key value (.step n) (some g)).store = some g' ∧
      lookupStep n g' = some st' ∧
      lookupP key st'.config.parameters = some value ∧
      st'.runScript = genRunScript st'.config := by
  obtain ⟨v0, hv⟩ := Option.isSome_iff_exists.mp hk
  have hfirst : (update key value (.step n) (some g)).store
      = some (setStep n
          ⟨⟨setParam key value st.config.parameters, st.config.metadata⟩,
           genRunScript ⟨setParam key value st.config.parameters, st.config.metadata⟩⟩ g) := by
    simp [update, hs, hv]
  refine ⟨_, _, hfirst, lookupStep_setStep_self n _ g (by simp [hs]), ?_, rfl⟩
  exact lookupP_setParam_some key value _ hk

/-- Witness for C1 at a concrete graph. -/
theorem update_sets_param_and_regenerates_witness :
    lookupStep 5 g1 = some st1 ∧
    (lookupP "clock_period" st1.config.parameters).isSome ∧
    ∃ g' st', (update "clock_period" "2.0" (.step 5) (some g1)).store = some g' ∧
      lookupStep 5 g' = some st' ∧
      lookupP "clock_period" st'.config.parameters = some "2.0" ∧
      st'.runScript = genRunScript st'.config :=
  ⟨by decide, by decide,
   update_sets_param_and_regenerates "clock_period" "2.0" 5 g1 st1 (by decide) (by decide)⟩

/-- Claim C2: an update addressed to a step identifier that does not resolve
to an existing step mutates nothing and terminates fatally with the
step-not-found error. -/
theorem update_step_not_found (key value : String) (n : Nat) (g : BuildGraph)
    (h : lookupStep n g = none) :
    update key value (.step n) (some g)
      = ⟨some g, [stepNotFoundLine n], .fatal (.stepNotFound n)⟩ ∧
    updExitCode (update key value (.step n) (some g)).exit ≠ 0 := by
  constructor
  · simp [update, h]
  · simp [update, h, updExitCode]

/-- Witness for C2 at a concrete graph. -/
theorem update_step_not_found_witness :
    lookupStep 7 g1 = none ∧
    (update "clock_period" "2.0" (.step 7) (some g1)
      = ⟨some g1, [stepNotFoundLine 7], .fatal (.stepNotFound 7)⟩ ∧
    updExitCode (update "clock_period" "2.0" (.step 7) (some g1)).exit ≠ 0) :=
  ⟨by decide, update_step_not_found "clock_period" "2.0" 7 g1 (by decide)⟩

/-- Claim C3: a target step whose parameters do not contain the key is
skipped: the store is unchanged (in particular the key is not inserted and no
run script changes), one informational line naming the step and the key is
printed, and the operation terminates normally. -/
theorem update_key_absent_skips (key value : String) (n : Nat) (g : BuildGraph)
    (st : StepState) (hs : lookupStep n g = some st)
    (hk : lookupP key st.config.parameters = none) :
    update key value (.step n) (some g) = ⟨some g, [skipLine n key], .ok⟩ := by
  simp [update, hs, hk]

/-- Witness for C3 at a concrete graph. -/
theorem update_key_absent_skips_witness :
    lookupStep 5 g1 = some st1 ∧
    lookupP "voltage" st1.config.parameters = none ∧
    update "voltage" "0.9" (.step 5) (some g1) = ⟨some g1, [skipLine 5 "voltage"], .ok⟩ :=
  ⟨by decide, by decide,
   update_key_absent_skips "voltage" "0.9" 5 g1 st1 (by decide) (by decide)⟩

/-- Claim C4: when the metadata store does not exist, the update terminates
fatally with a non-zero exit status and the instructional message, and
mutates nothing. -/
theorem update_graph_not_elaborated (key value : String) (target : Target) :
    update key value target none
      = ⟨none, [graphNotElaboratedLine], .fatal .graphNotElaborated⟩ ∧
    updExitCode (update key value target none).exit ≠ 0 := by
  constructor
  · rfl
  · simp [update, updExitCode]

end Mflowgen

namespace Mflowgen

/-- Claim C5: when a required flag is missing (Python-falsy `key` or `value`,
or neither `step` nor `all` given), `launch_update` prints the usage text,
returns normally (process exit status 0), and leaves the store untouched. -/
theorem launch_update_missing_flags (help_ : Bool) (key value : Option String)
    (step : Option Int) (all_ : Bool) (store : MetaStore)
    (h : truthyStr key = false ∨ truthyStr value = false ∨
         (truthyStep step = false ∧ all_ = false)) :
    launch_update help_ key value step all_ store = ⟨store, print_help_lines, .normal⟩ ∧
    exitCodeOf (launch_update help_ key value step all_ store).exit = 0 := by
  have hres : launch_update help_ key value step all_ store
      = ⟨store, print_help_lines, .normal⟩ := by
    rcases h with h | h | ⟨h1, h2⟩
    · simp [launch_update, h]
    · simp [launch_update, h]
    · simp [launch_update, h1, h2]
  exact ⟨hres, by rw [hres]; rfl⟩

/-- Witness for C5: missing `--value`. -/
theorem launch_update_missing_flags_witness :
    truthyStr none = false ∧
    (launch_update false (some "clock_period") none (some 5) false (some g1)
      = ⟨some g1, print_help_lines, .normal⟩ ∧
    exitCodeOf (launch_update false (some "clock_period") none (some 5) false (some g1)).exit
      = 0) :=
  ⟨rfl, launch_update_missing_flags false (some "clock_period") none (some 5) false (some g1)
    (Or.inr (Or.inl rfl))⟩

/-- Claim C6: a first positional argument that is not a recognized subcommand
makes `launch` print the error line and exit the process with status 1. -/
theorem launch_unrecognized_command (c : String) (rest : List String) (help_ : Bool)
    (key value : Option String) (step : Option Int) (all_ : Bool) (store : MetaStore)
    (h : c ∉ commands) :
    launch (c :: rest) help_ key value step all_ store
      = ⟨store, [unrecognizedCmdLine], .exited 1⟩ ∧
    exitCodeOf (launch (c :: rest) help_ key value step all_ store).exit ≠ 0 := by
  constructor
  · simp [launch, h]
  · simp [launch, h, exitCodeOf]

/-- Witness for C6: the subcommand `delete` is not recognized. -/
theorem launch_unrecognized_command_witness :
    "delete" ∉ commands ∧
    (launch ["delete"] false (some "k") (some "v") none false (some g1)
      = ⟨some g1, [unrecognizedCmdLine], .exited 1⟩ ∧
    exitCodeOf (launch ["delete"] false (some "k") (some "v") none false (some g1)).exit ≠ 0) :=
  ⟨by decide,
   launch_unrecognized_command "delete" [] false (some "k") (some "v") none false (some g1)
     (by decide)⟩

/-- Claim C7 (code evaluated at the failing input): with valid flags
(`--all --key clock_period --value 2.0`), the stub `launch_update` prints the
confirmation line exactly once — interpolating the `--step` flag's value
`None` — while performing no update at all: the store (whose step 5 still has
`clock_period = "1.0"`) is returned unchanged. -/
theorem launch_update_stub_prints_confirmation_without_update :
    launch_update false (some "clock_period") (some "2.0") none true (some g1)
      = ⟨some g1,
         ["Updated parameter \"clock_period\" = \"2.0\" for step \"None\""],
         .normal⟩ := by
  decide

/-- Claim C8: applying the modelled update twice in a row to an existing step
yields the same persisted state as applying it once. -/
theorem update_idempotent (key value : String) (n : Nat) (g : BuildGraph)
    (st : StepState) (hs : lookupStep n g = some st) :
    (update key value (.step n) ((update key value (.step n) (some g)).store)).store
      = (update key value (.step n) (some g)).store := by
  cases hv : lookupP key st.config.parameters with
  | none => simp [update, hs, hv]
  | some v0 =>
    have hfirst : (update key value (.step n) (some g)).store
        = some (setStep n
            ⟨⟨setParam key value st.config.parameters, st.config.metadata⟩,
             genRunScript ⟨setParam key value st.config.parameters, st.config.metadata⟩⟩ g) := by
      simp [update, hs, hv]
    have hlook : lookupStep n (setStep n
        ⟨⟨setParam key value st.config.parameters, st.config.metadata⟩,
         genRunScript ⟨setParam key value st.config.parameters, st.config.metadata⟩⟩ g)
        = some ⟨⟨setParam key value st.config.parameters, st.config.metadata⟩,
            genRunScript ⟨setParam key value st.config.parameters, st.config.metadata⟩⟩ :=
      lookupStep_setStep_self n _ g (by simp [hs])
    have hv2 : lookupP key (setParam key value st.config.parameters) = some value :=
      lookupP_setParam_some key value _ (by simp [hv])
    rw [hfirst]
    simp [update, hlook, hv2, setParam_idem, setStep_setStep]

/-- Witness for C8 at a concrete graph. -/
theorem update_idempotent_witness :
    lookupStep 5 g1 = some st1 ∧
    (update "clock_period" "2.0" (.step 5)
        ((update "clock_period" "2.0" (.step 5) (some g1)).store)).store
      = (update "clock_period" "2.0" (.step 5) (some g1)).store :=
  ⟨by decide, update_idempotent "clock_period" "2.0" 5 g1 st1 (by decide)⟩

/-- Claim C9: extra positional arguments after a valid subcommand make
`launch` print the positional-args error, force the help flag, and dispatch
so that only help text follows — no update is performed, the store is
untouched, and the command returns normally. -/
theorem launch_extra_positional_args (c x : String) (rest : List String) (help_ : Bool)
    (key value : Option String) (step : Option Int) (all_ : Bool) (store : MetaStore)
    (hc : c ∈ commands) :
    launch (c :: x :: rest) help_ key value step all_ store
      = ⟨store,
         "" :: unrecognizedPosArgsLine ::
           (if c = "update" then print_help_lines else launch_help_lines),
         .normal⟩ := by
  simp only [commands, List.mem_cons, List.mem_singleton, List.not_mem_nil, or_false] at hc
  rcases hc with rfl | rfl
  · simp [launch, commands, launch_update]
  · simp [launch, commands]

/-- Witness for C9: `update` followed by an extra positional argument. -/
theorem launch_extra_positional_args_witness :
    "update" ∈ commands ∧
    launch ["update", "extra"] false (some "clock_period") (some "2.0") (some 5) false (some g1)
      = ⟨some g1,
         "" :: unrecognizedPosArgsLine ::
           (if "update" = "update" then print_help_lines else launch_help_lines),
         .normal⟩ :=
  ⟨by decide,
   launch_extra_positional_args "update" "extra" [] false (some "clock_period") (some "2.0")
     (some 5) false (some g1) (by decide)⟩

end Mflowgen

namespace InstBuffer

/-- Claim C10: for every registered request address (32 bits) and line-offset
width, the packed outgoing memory request is a read (`TYPE_READ`) with zero
opaque and len fields, and its address is the registered address with the low
`line_bw` offset bits forced to zero — in particular it is line-aligned. -/
theorem comb_memreq_msg_pack_read_aligned (line_bw a : Nat)
    (hbw : line_bw ≤ 32) (ha : a < 2 ^ 32) :
    (comb_memreq_msg_pack line_bw a).type_ = TYPE_READ ∧
    (comb_memreq_msg_pack line_bw a).opq = 0 ∧
    (comb_memreq_msg_pack line_bw a).len = 0 ∧
    (comb_memreq_msg_pack line_bw a).addr = a / 2 ^ line_bw * 2 ^ line_bw ∧
    (comb_memreq_msg_pack line_bw a).addr % 2 ^ line_bw = 0 := by
  have hq : a / 2 ^ line_bw < 2 ^ (32 - line_bw) := by
    rw [Nat.div_lt_iff_lt_mul (Nat.pos_pow_of_pos line_bw (by norm_num))]
    calc a < 2 ^ 32 := ha
      _ = 2 ^ (32 - line_bw) * 2 ^ line_bw := by
            rw [← pow_add, Nat.sub_add_cancel hbw]
  have haddr : (comb_memreq_msg_pack line_bw a).addr
      = a / 2 ^ line_bw * 2 ^ line_bw := by
    show bitsConcat (bitsSlice a line_bw 32) line_bw 0 = _
    unfold bitsConcat bitsSlice
    rw [Nat.mod_eq_of_lt hq, Nat.add_zero]
  refine ⟨rfl, rfl, rfl, haddr, ?_⟩
  rw [haddr]
  exact Nat.mul_mod_left _ _

/-- Witness for C10 with a 16-byte line (`line_bw = 4`) at a concrete address. -/
theorem comb_memreq_msg_pack_read_aligned_witness :
    4 ≤ 32 ∧ 305419896 < 2 ^ 32 ∧
    ((comb_memreq_msg_pack 4 305419896).type_ = TYPE_READ ∧
     (comb_memreq_msg_pack 4 305419896).opq = 0 ∧
     (comb_memreq_msg_pack 4 305419896).len = 0 ∧
     (comb_memreq_msg_pack 4 305419896).addr = 305419896 / 2 ^ 4 * 2 ^ 4 ∧
     (comb_memreq_msg_pack 4 305419896).addr % 2 ^ 4 = 0) :=
  ⟨by decide, by decide,
   comb_memreq_msg_pack_read_aligned 4 305419896 (by decide) (by decide)⟩

end InstBuffer
